import Mathlib

/-!
# Workspace Manager — verification of the offline-sync and session-tracking subsystems

Shallow embedding of the sync queue / sync engine (`SyncService` in
`TECHNICAL_CHALLENGES.md` §4), the conflict-resolution read path
(`PayloadPersistenceService.getWorkspace`), the persistent-state helpers
(`usePersistentState`, `MockElectronStore`), and the server-side session
tracking (`src/plugins/sessionTracking/index.ts`, `src/server.ts`, the
`trackActivity` middleware).

JavaScript machine details that matter here are modelled explicitly:
`await`-points inside `processQueue` do not interleave with other triggers
(single-threaded cooperative execution), so sequential state passing is
faithful; the recursive `this.processQueue()` call happens inside the `try`
block, before the `finally` clause resets `isSyncing`, so the recursive
invocation observes `isSyncing = true`.
-/

namespace WorkspaceManager

/-! ## Sync queue and sync engine (`SyncService`) -/

/-- A mutation operation as handed to `addToQueue` (its `type` and `data`
fields); payload contents are abstract. -/
structure Operation where
  opType : String
  payload : String
deriving DecidableEq, Repr

/-- The record `addToQueue` pushes on the queue:
`{ ...operation, timestamp: Date.now(), id: crypto.randomUUID() }`.
`timestamp` is the clock at enqueue time; `id` is a fresh identifier
(modelled by a counter rather than a random UUID). -/
structure QueuedOp where
  op : Operation
  timestamp : Nat
  id : Nat
deriving DecidableEq, Repr

/-- State of a `SyncService` instance, plus ghost observation lists.
`delivered` records, in order, the operations the remote system
acknowledged (the fake-remote log of §8 of the spec); `attempted` records,
in order, every operation passed to `executeOperation`; `enqueuedLog`
records every operation ever enqueued, in order.  `nowMs` and `nextId`
model `Date.now()` and UUID freshness. -/
structure SyncState where
  queue : List QueuedOp
  isSyncing : Bool
  isOnline : Bool
  delivered : List QueuedOp
  attempted : List QueuedOp
  enqueuedLog : List QueuedOp
  nowMs : Nat
  nextId : Nat
deriving DecidableEq, Repr

/-- Model of `SyncService.processQueue`, faithful to the source:

```
async processQueue() {
  if (!this.isOnline || this.isSyncing || this.queue.length === 0) return;
  this.isSyncing = true;
  try {
    const operation = this.queue[0];
    await this.executeOperation(operation);   // may throw
    this.queue.shift();
    this.saveQueue();
    if (this.queue.length > 0) { this.processQueue(); }   // not awaited
  } catch (error) { console.error(...); }
  finally { this.isSyncing = false; }
}
```

`exec` models `executeOperation`: `true` = resolves, `false` = throws.
The recursive call executes its guard synchronously, inside the `try`
block, hence with `isSyncing` still `true`.  `fuel` bounds the recursion
depth; `processQueue` below supplies more than enough. -/
def processQueueFuel (exec : QueuedOp → Bool) : Nat → SyncState → SyncState
  | 0, s => s
  | fuel + 1, s =>
    if !s.isOnline || s.isSyncing || s.queue.isEmpty then s
    else
      match s.queue with
      | [] => s
      | op :: rest =>
        let s1 : SyncState := { s with isSyncing := true, attempted := s.attempted ++ [op] }
        if exec op then
          let s2 : SyncState :=
            { s1 with queue := rest, delivered := s1.delivered ++ [op] }
          let s3 : SyncState :=
            if s2.queue.isEmpty then s2 else processQueueFuel exec fuel s2
          { s3 with isSyncing := false }
        else
          { s1 with isSyncing := false }

/-- One invocation of `processQueue`, with fuel ample for the queue length. -/
def processQueue (exec : QueuedOp → Bool) (s : SyncState) : SyncState :=
  processQueueFuel exec (s.queue.length + 1) s

/-- Model of `SyncService.addToQueue`: wrap the operation with a timestamp and a
fresh id, push it, persist (`saveQueue` swallows its own failures and
changes no in-memory state), and trigger a drain when online and not
already draining. -/
def addToQueue (exec : QueuedOp → Bool) (op : Operation) (s : SyncState) : SyncState :=
  let q : QueuedOp := { op := op, timestamp := s.nowMs, id := s.nextId }
  let s1 : SyncState :=
    { s with queue := s.queue ++ [q], enqueuedLog := s.enqueuedLog ++ [q],
             nextId := s.nextId + 1 }
  if s1.isOnline && !s1.isSyncing then processQueue exec s1 else s1

/-- External events driving a `SyncService`: an enqueue (a local mutation),
and the `online` / `offline` window events wired up in `setupListeners`. -/
inductive SyncEvent where
  | enqueue (op : Operation)
  | goOnline
  | goOffline
deriving DecidableEq, Repr

/-- Event dispatch: `enqueue` calls `addToQueue`; the `online` listener sets
`isOnline = true` and calls `processQueue`; the `offline` listener sets
`isOnline = false`.  The clock advances between events. -/
def syncStep (exec : QueuedOp → Bool) (e : SyncEvent) (s : SyncState) : SyncState :=
  match e with
  | .enqueue op => addToQueue exec op { s with nowMs := s.nowMs + 1 }
  | .goOnline => processQueue exec { s with isOnline := true, nowMs := s.nowMs + 1 }
  | .goOffline => { s with isOnline := false, nowMs := s.nowMs + 1 }

/-- Run a list of events from a state. -/
def syncRun (exec : QueuedOp → Bool) (events : List SyncEvent) (s : SyncState) : SyncState :=
  events.foldl (fun t e => syncStep exec e t) s

/-- A fresh `SyncService` (constructor): empty queue, not syncing, online
flag from `navigator.onLine`. -/
def initSync (online : Bool) : SyncState :=
  { queue := [], isSyncing := false, isOnline := online, delivered := [],
    attempted := [], enqueuedLog := [], nowMs := 0, nextId := 0 }

/-! ## Conflict resolution read path (`PayloadPersistenceService.getWorkspace`) -/

/-- An entity as held by the local store and the remote backend: a stable id,
a last-updated timestamp (milliseconds since the epoch, the value of
`new Date(updatedAt).getTime()`), and abstract field contents. -/
structure Workspace where
  id : Nat
  updatedAt : Int
  data : String
deriving DecidableEq, Repr

/-- Observable outcome of one `getWorkspace(id)` call: the returned value,
the local-store content for that id after the call, and whether
`localStore.saveWorkspace(backendWorkspace)` was invoked (the overwrite). -/
structure GetWorkspaceResult where
  result : Option Workspace
  store : Option Workspace
  wroteRemote : Bool
deriving DecidableEq, Repr

/-- Model of `PayloadPersistenceService.getWorkspace`.  `localWs` is the local
store content for the id; `fetch` models `payloadAPI.getWorkspace`: `none` =
the fetch threw (caught and logged), `some none` = it returned null,
`some (some r)` = it returned `r`.  The remote copy is taken iff it exists
and is strictly newer than the local copy or the local copy is absent;
exactly then the local store is overwritten. -/
def getWorkspace (online : Bool) (localWs : Option Workspace)
    (fetch : Option (Option Workspace)) : GetWorkspaceResult :=
  if online then
    match fetch with
    | some (some backend) =>
      match localWs with
      | none => ⟨some backend, some backend, true⟩
      | some l =>
        if backend.updatedAt > l.updatedAt then ⟨some backend, some backend, true⟩
        else ⟨some l, some l, false⟩
    | some none => ⟨localWs, localWs, false⟩
    | none => ⟨localWs, localWs, false⟩
  else ⟨localWs, localWs, false⟩

/-! ## Server-side sessions (`src/plugins/sessionTracking/index.ts`) -/

/-- Session status values of the `sessions` collection. -/
inductive SessionStatus where
  | active
  | paused
  | completed
deriving DecidableEq, Repr

/-- A document of the `sessions` collection (fields relevant to the claims;
`context` is the free-form JSON blob, kept abstract).  Timestamps are
milliseconds since the epoch. -/
structure Session where
  id : Nat
  userId : Nat
  status : SessionStatus
  startedAt : Option Int
  lastActive : Option Int
  completedAt : Option Int
  durationMinutes : Option Int
  context : String
deriving DecidableEq, Repr

/-- JavaScript `Math.round` on an exact rational: floor of `q + 1/2`
(half-way cases round up). -/
def mathRound (q : ℚ) : ℤ := ⌊q + 1/2⌋

/-- Model of the `beforeChange` hook of the `sessions` collection: on create,
set `startedAt` and the owning user; always stamp `lastActive`; when the
document is entering `completed` status with no `completedAt` recorded,
set `completedAt := now` and, if `startedAt` is present, compute
`durationMinutes = Math.round((endTime - startTime) / 60000)`. -/
def sessionsBeforeChange (operationIsCreate : Bool) (reqUser : Option Nat)
    (now : Int) (data : Session) : Session :=
  let d1 : Session :=
    if operationIsCreate then
      { data with startedAt := some now, userId := reqUser.getD data.userId }
    else data
  let d2 : Session := { d1 with lastActive := some now }
  if d2.status = .completed ∧ d2.completedAt = none then
    let d3 : Session := { d2 with completedAt := some now }
    match d2.startedAt with
    | some st =>
      { d3 with durationMinutes := some (mathRound (((now - st : Int) : ℚ) / 60000)) }
    | none => d3
  else d2

/-- Model of `payload.update({ collection: sessions, id, data })`: apply the
field changes to every stored document with that id, running the
collection `beforeChange` hook (as an update, with no request user) on the
changed document. -/
def payloadUpdateSessions (sid : Nat) (changes : Session → Session) (now : Int)
    (db : List Session) : List Session :=
  db.map fun s =>
    if s.id = sid then sessionsBeforeChange false none now (changes s) else s

/-- HTTP outcome of an endpoint call: status code, response session record
(when one is sent), and the session collection afterwards. -/
structure EndpointResult where
  status : Nat
  body : Option Session
  db : List Session
deriving DecidableEq, Repr

/-- Model of the `saveState` handler (`POST /api/session-tracking/save-state`):
401 when unauthenticated; look up the session by id (null result or a
non-owning caller gives 403 and no write); otherwise update the session
context and `lastActive`; a throwing `payload.update` (modelled by
`updateOk = false`) gives 500 with no write. -/
def saveStateHandler (user : Option Nat) (sessionId : Nat) (context : String)
    (now : Int) (updateOk : Bool) (db : List Session) : EndpointResult :=
  match user with
  | none => ⟨401, none, db⟩
  | some uid =>
    match db.find? (fun s => s.id == sessionId) with
    | none => ⟨403, none, db⟩
    | some sess =>
      if sess.userId ≠ uid then ⟨403, none, db⟩
      else if updateOk then
        ⟨200, none,
          payloadUpdateSessions sessionId
            (fun s => { s with context := context, lastActive := some now }) now db⟩
      else ⟨500, none, db⟩

/-- Model of the `GET /api/resume-session/:id` handler in `server.ts`: 401
when unauthenticated; 403 when the session is missing or owned by another
user; otherwise, if the session is paused, update it to active with a fresh
`lastActive`; respond with the session record as fetched. -/
def resumeSessionHandler (user : Option Nat) (sid : Nat) (now : Int)
    (db : List Session) : EndpointResult :=
  match user with
  | none => ⟨401, none, db⟩
  | some uid =>
    match db.find? (fun s => s.id == sid) with
    | none => ⟨403, none, db⟩
    | some sess =>
      if sess.userId ≠ uid then ⟨403, none, db⟩
      else
        let db' : List Session :=
          if sess.status = .paused then
            payloadUpdateSessions sid
              (fun s => { s with status := .active, lastActive := some now }) now db
          else db
        ⟨200, some sess, db'⟩

/-! ## Activity-tracking middleware (`trackActivity`) -/

/-- A document of the `users` collection (only the field the middleware
touches). -/
structure UserRec where
  id : Nat
  lastActive : Option Int
deriving DecidableEq, Repr

/-- Server data store as seen by the middleware. -/
structure TrackState where
  users : List UserRec
  sessions : List Session
deriving DecidableEq, Repr

/-- Inactivity threshold: `15 * 60 * 1000` milliseconds. -/
def ACTIVITY_TIMEOUT : Int := 15 * 60 * 1000

/-- Model of the `trackActivity` middleware: for an authenticated request,
stamp the requesting user `lastActive`; find that user single active
session (the first match, `limit: 1`); stamp its `lastActive`; then, using
the timestamp the session carried before the stamp, mark the session
paused when `now - lastActive > ACTIVITY_TIMEOUT` (strictly).  A session
with no recorded `lastActive` compares as NaN in the source and is never
paused. -/
def trackActivity (reqUser : Option Nat) (now : Int) (st : TrackState) : TrackState :=
  match reqUser with
  | none => st
  | some uid =>
    let users' : List UserRec :=
      st.users.map fun u => if u.id = uid then { u with lastActive := some now } else u
    match st.sessions.find?
        (fun s => s.userId == uid && s.status == SessionStatus.active) with
    | none => { users := users', sessions := st.sessions }
    | some session =>
      let sessions1 := payloadUpdateSessions session.id
        (fun s => { s with lastActive := some now }) now st.sessions
      let sessions2 :=
        match session.lastActive with
        | some la =>
          if now - la > ACTIVITY_TIMEOUT then
            payloadUpdateSessions session.id
              (fun s => { s with status := .paused }) now sessions1
          else sessions1
        | none => sessions1
      { users := users', sessions := sessions2 }

/-! ## Local store helpers (`usePersistentState`, `MockElectronStore`) -/

/-- Model of the `usePersistentState` initializer: read the stored text
(`getItem` result: an exception, null, or a string — the empty string is
falsy in the source and falls through to the initial value), deserialize
it; any thrown error is caught and logged and the caller-supplied initial
value is returned.  The second component records whether an error was
logged. -/
def usePersistentStateInit {T : Type} (getItem : Except String (Option String))
    (deserialize : String → Except String T) (initialValue : T) : T × Bool :=
  match getItem with
  | .error _ => (initialValue, true)
  | .ok none => (initialValue, false)
  | .ok (some str) =>
    if str = "" then (initialValue, false)
    else
      match deserialize str with
      | .ok v => (v, false)
      | .error _ => (initialValue, true)

/-- Model of the `usePersistentState` write effect: `setItem` of the
serialized state; a throwing write is caught and logged and the in-memory
state still holds the value being written.  Returns (in-memory state,
storage contents, whether an error was logged); the storage is an
association list where the most recent binding of a key is first. -/
def usePersistentStateWrite {T : Type} (key : String) (state : T)
    (serialize : T → String) (writeOk : Bool)
    (storage : List (String × String)) : T × List (String × String) × Bool :=
  if writeOk then (state, (key, serialize state) :: storage, false)
  else (state, storage, true)

/-- In-memory state of a `MockElectronStore`: the record of values, the
`electron-store-mock` localStorage text it persists to, and whether an
error was logged. -/
structure MockElectronStore where
  store : List (String × String)
  backing : Option String
  loggedError : Bool
deriving DecidableEq, Repr

/-- Model of the `MockElectronStore` constructor with
`loadFromLocalStorage`: merge parsed stored content over the defaults; a
parse failure is caught and logged and the defaults are kept. -/
def mockStoreInit (defaults : List (String × String)) (stored : Option String)
    (parse : String → Except String (List (String × String))) : MockElectronStore :=
  match stored with
  | none => { store := defaults, backing := none, loggedError := false }
  | some s =>
    match parse s with
    | .ok kvs => { store := kvs ++ defaults, backing := some s, loggedError := false }
    | .error _ => { store := defaults, backing := some s, loggedError := true }

/-- Model of `MockElectronStore.get`: the stored value when the key is
defined, else the supplied default. -/
def mockStoreGet (m : MockElectronStore) (key : String) (defaultValue : String) : String :=
  match m.store.lookup key with
  | some v => v
  | none => defaultValue

/-- Model of `MockElectronStore.set`: write the in-memory record first, then
persist; a throwing persist is caught and logged, leaving the in-memory
record as written. -/
def mockStoreSet (key value : String) (persistOk : Bool)
    (serialize : List (String × String) → String) (m : MockElectronStore) :
    MockElectronStore :=
  let st := (key, value) :: m.store
  if persistOk then { m with store := st, backing := some (serialize st) }
  else { m with store := st, loggedError := true }

/-! ## Concrete inputs used by witnesses -/

/-- A queued operation used in concrete instances. -/
def sampleQueuedOp : QueuedOp := ⟨⟨"update", "taskA"⟩, 5, 0⟩

/-- A sync-engine state whose head operation is about to fail delivery. -/
def sampleFailState : SyncState :=
  { queue := [sampleQueuedOp], isSyncing := false, isOnline := true,
    delivered := [], attempted := [], enqueuedLog := [sampleQueuedOp],
    nowMs := 6, nextId := 1 }

/-- A concrete session record owned by user 1 and currently active. -/
def sampleSession : Session :=
  { id := 10, userId := 1, status := .active, startedAt := some 0,
    lastActive := some 0, completedAt := none, durationMinutes := none,
    context := "old" }

/-- A concrete paused session owned by user 1. -/
def samplePaused : Session := { sampleSession with id := 11, status := .paused }

/-- A concrete session entering completion, started at time 0. -/
def sampleCompleting : Session :=
  { sampleSession with id := 12, status := .completed }

/-! ## Theorems -/

/-! ### Basic lemmas about `processQueue` -/

/-- A (nested) invocation that observes `isSyncing = true` is a no-op at the
guard, whatever the fuel. -/
lemma processQueueFuel_of_isSyncing (exec : QueuedOp → Bool) (fuel : Nat)
    (s : SyncState) (h : s.isSyncing = true) :
    processQueueFuel exec fuel s = s := by
  cases fuel with
  | zero => rfl
  | succ n => simp [processQueueFuel, h]

/-- Guard cases: offline, already syncing, or empty queue — no state change. -/
lemma processQueueFuel_guard (exec : QueuedOp → Bool) (fuel : Nat) (s : SyncState)
    (h : (!s.isOnline || s.isSyncing || s.queue.isEmpty) = true) :
    processQueueFuel exec fuel s = s := by
  cases fuel with
  | zero => rfl
  | succ n => simp only [processQueueFuel, h, if_true]

/-- Successful head execution: exactly the head operation is attempted and
delivered, the queue loses its head, and `isSyncing` ends `false`.  The
"continue processing" recursion contributes nothing: it runs while
`isSyncing` is still `true`. -/
lemma processQueueFuel_success (exec : QueuedOp → Bool) (fuel : Nat) (s : SyncState)
    (op : QueuedOp) (rest : List QueuedOp)
    (hq : s.queue = op :: rest) (hon : s.isOnline = true) (hsy : s.isSyncing = false)
    (hex : exec op = true) :
    processQueueFuel exec (fuel + 1) s =
      { s with queue := rest, delivered := s.delivered ++ [op],
               attempted := s.attempted ++ [op], isSyncing := false } := by
  have hrec : ∀ t : SyncState, t.isSyncing = true →
      processQueueFuel exec fuel t = t :=
    fun t ht => processQueueFuel_of_isSyncing exec fuel t ht
  simp only [processQueueFuel, hq, hon, hsy]
  simp only [List.isEmpty_cons, Bool.not_true, Bool.false_or, Bool.or_false, if_false,
    Bool.false_eq_true]
  simp only [hex, if_true]
  by_cases hrest : rest.isEmpty = true
  · simp [hrest, hsy]
  · simp only [hrest, if_false, Bool.false_eq_true]
    rw [hrec _ rfl]

/-- Failing head execution (`executeOperation` throws): the error is caught,
the queue, delivered log and everything else are unchanged, only the
attempt is recorded and `isSyncing` is reset by `finally`. -/
lemma processQueueFuel_failure (exec : QueuedOp → Bool) (fuel : Nat) (s : SyncState)
    (op : QueuedOp) (rest : List QueuedOp)
    (hq : s.queue = op :: rest) (hon : s.isOnline = true) (hsy : s.isSyncing = false)
    (hex : exec op = false) :
    processQueueFuel exec (fuel + 1) s =
      { s with attempted := s.attempted ++ [op], isSyncing := false } := by
  simp only [processQueueFuel, hq, hon, hsy]
  simp only [List.isEmpty_cons, Bool.not_true, Bool.false_or, Bool.or_false, if_false,
    Bool.false_eq_true]
  simp [hex]

/-- Unfold `processQueue` to its fuelled form. -/
lemma processQueue_eq_fuel (exec : QueuedOp → Bool) (s : SyncState) :
    processQueue exec s = processQueueFuel exec (s.queue.length + 1) s := rfl

/-- Complete case analysis of one `processQueue` invocation with nonzero
fuel: either the guard fires and nothing changes, or exactly the head
operation is attempted, and it is delivered and popped iff its execution
succeeds. -/
lemma processQueueFuel_cases (exec : QueuedOp → Bool) (fuel : Nat) (s : SyncState) :
    ((!s.isOnline || s.isSyncing || s.queue.isEmpty) = true ∧
      processQueueFuel exec (fuel + 1) s = s) ∨
    ∃ op rest, s.queue = op :: rest ∧ s.isOnline = true ∧ s.isSyncing = false ∧
      ((exec op = true ∧ processQueueFuel exec (fuel + 1) s =
          { s with queue := rest, delivered := s.delivered ++ [op],
                   attempted := s.attempted ++ [op], isSyncing := false }) ∨
       (exec op = false ∧ processQueueFuel exec (fuel + 1) s =
          { s with attempted := s.attempted ++ [op], isSyncing := false })) := by
  by_cases hg : (!s.isOnline || s.isSyncing || s.queue.isEmpty) = true
  · exact Or.inl ⟨hg, processQueueFuel_guard exec (fuel + 1) s hg⟩
  · right
    have h3 : s.isOnline = true ∧ s.isSyncing = false ∧ ¬s.queue.isEmpty = true := by
      constructor
      · cases hon : s.isOnline with
        | true => rfl
        | false => exact absurd (by simp [hon]) hg
      constructor
      · cases hsy : s.isSyncing with
        | false => rfl
        | true => exact absurd (by simp [hsy]) hg
      · intro he
        exact hg (by simp [he])
    obtain ⟨hon, hsy, hne⟩ := h3
    obtain ⟨op, rest, hq⟩ : ∃ op rest, s.queue = op :: rest := by
      cases hqq : s.queue with
      | nil => exact absurd (by simp [hqq]) hne
      | cons a t => exact ⟨a, t, rfl⟩
    refine ⟨op, rest, hq, hon, hsy, ?_⟩
    cases hex : exec op with
    | true =>
      exact Or.inl ⟨rfl, processQueueFuel_success exec fuel s op rest hq hon hsy hex⟩
    | false =>
      exact Or.inr ⟨rfl, processQueueFuel_failure exec fuel s op rest hq hon hsy hex⟩

/-- One `processQueue` invocation preserves the ledger identity: everything
ever enqueued is what was delivered followed by what is still queued. -/
lemma processQueue_ledger (exec : QueuedOp → Bool) (s : SyncState)
    (h : s.enqueuedLog = s.delivered ++ s.queue) :
    (processQueue exec s).enqueuedLog =
      (processQueue exec s).delivered ++ (processQueue exec s).queue := by
  rw [processQueue_eq_fuel]
  rcases processQueueFuel_cases exec s.queue.length s with ⟨_, heq⟩ |
    ⟨op, rest, hq, _, _, (⟨_, heq⟩ | ⟨_, heq⟩)⟩ <;> rw [heq]
  · exact h
  · simpa [hq] using h
  · exact h

/-- One `processQueue` invocation started outside a drain leaves
`isSyncing` false. -/
lemma processQueue_isSyncing (exec : QueuedOp → Bool) (s : SyncState)
    (h : s.isSyncing = false) : (processQueue exec s).isSyncing = false := by
  rw [processQueue_eq_fuel]
  rcases processQueueFuel_cases exec s.queue.length s with ⟨_, heq⟩ |
    ⟨op, rest, hq, _, _, (⟨_, heq⟩ | ⟨_, heq⟩)⟩
  · rw [heq]; exact h
  · rw [heq]
  · rw [heq]

/-- When the guard does not fire, exactly the head operation is attempted
by one `processQueue` invocation, whatever the outcome of its
execution. -/
lemma processQueue_attempted_head (exec : QueuedOp → Bool) (s : SyncState)
    (op : QueuedOp) (rest : List QueuedOp)
    (hq : s.queue = op :: rest) (hon : s.isOnline = true) (hsy : s.isSyncing = false) :
    (processQueue exec s).attempted = s.attempted ++ [op] := by
  rw [processQueue_eq_fuel]
  rcases processQueueFuel_cases exec s.queue.length s with ⟨hg, heq⟩ |
    ⟨op', rest', hq', _, _, (⟨_, heq⟩ | ⟨_, heq⟩)⟩
  · simp [hon, hsy, hq] at hg
  · rw [heq]
    rw [hq] at hq'
    simp only [List.cons.injEq] at hq'
    rw [hq'.1]
  · rw [heq]
    rw [hq] at hq'
    simp only [List.cons.injEq] at hq'
    rw [hq'.1]

/-- Enqueueing preserves the ledger identity and the drained flag. -/
lemma addToQueue_invariants (exec : QueuedOp → Bool) (op : Operation) (s : SyncState)
    (h1 : s.enqueuedLog = s.delivered ++ s.queue) (h2 : s.isSyncing = false) :
    (addToQueue exec op s).enqueuedLog =
        (addToQueue exec op s).delivered ++ (addToQueue exec op s).queue ∧
    (addToQueue exec op s).isSyncing = false := by
  unfold addToQueue
  set q : QueuedOp := { op := op, timestamp := s.nowMs, id := s.nextId } with hq
  set s1 : SyncState :=
    { s with queue := s.queue ++ [q], enqueuedLog := s.enqueuedLog ++ [q],
             nextId := s.nextId + 1 } with hs1
  have g1 : s1.enqueuedLog = s1.delivered ++ s1.queue := by
    simp [hs1, h1]
  have g2 : s1.isSyncing = false := h2
  by_cases hc : (s1.isOnline && !s1.isSyncing) = true
  · rw [if_pos hc]
    exact ⟨processQueue_ledger exec s1 g1, processQueue_isSyncing exec s1 g2⟩
  · rw [if_neg hc]
    exact ⟨g1, g2⟩

/-- Every event handler preserves the ledger identity and the drained flag. -/
lemma syncStep_invariants (exec : QueuedOp → Bool) (e : SyncEvent) (s : SyncState)
    (h1 : s.enqueuedLog = s.delivered ++ s.queue) (h2 : s.isSyncing = false) :
    (syncStep exec e s).enqueuedLog =
        (syncStep exec e s).delivered ++ (syncStep exec e s).queue ∧
    (syncStep exec e s).isSyncing = false := by
  cases e with
  | enqueue op => exact addToQueue_invariants exec op _ h1 h2
  | goOnline =>
    exact ⟨processQueue_ledger exec _ h1, processQueue_isSyncing exec _ h2⟩
  | goOffline => exact ⟨h1, h2⟩

/-- Any event trace preserves the ledger identity and the drained flag. -/
lemma syncRun_invariants (exec : QueuedOp → Bool) (events : List SyncEvent)
    (s : SyncState)
    (h1 : s.enqueuedLog = s.delivered ++ s.queue) (h2 : s.isSyncing = false) :
    (syncRun exec events s).enqueuedLog =
        (syncRun exec events s).delivered ++ (syncRun exec events s).queue ∧
    (syncRun exec events s).isSyncing = false := by
  induction events generalizing s with
  | nil => exact ⟨h1, h2⟩
  | cons e es ih =>
    have h := syncStep_invariants exec e s h1 h2
    exact ih (syncStep exec e s) h.1 h.2

/-! ### Claim theorems for the sync engine -/

/-- C1 (evaluation at the failing input): the client enqueues the three
operations create/update/delete of task A while offline, then the `online`
event fires, and every remote execution succeeds.  The claim says all
three operations are delivered and the queue ends empty; the code delivers
only the head operation (`create`) and leaves the other two queued,
because the recursive continue-processing call inside `processQueue` runs
while `isSyncing` is still true (the `finally` reset has not executed) and
so returns at its guard. -/
theorem drain_single_trigger_delivers_only_head :
    (syncRun (fun _ => true)
        [.enqueue ⟨"create", "taskA"⟩, .enqueue ⟨"update", "taskA"⟩,
         .enqueue ⟨"delete", "taskA"⟩, .goOnline] (initSync false)).delivered =
      [⟨⟨"create", "taskA"⟩, 1, 0⟩] ∧
    (syncRun (fun _ => true)
        [.enqueue ⟨"create", "taskA"⟩, .enqueue ⟨"update", "taskA"⟩,
         .enqueue ⟨"delete", "taskA"⟩, .goOnline] (initSync false)).queue =
      [⟨⟨"update", "taskA"⟩, 2, 1⟩, ⟨⟨"delete", "taskA"⟩, 3, 2⟩] := by
  constructor <;> rfl

/-- C2: over every event trace (enqueues, connectivity changes) and every
remote success/failure behaviour, the full enqueue sequence equals the
delivered sequence followed by the still-queued sequence — so the
operations delivered to the remote system form a prefix of the enqueue
sequence, in enqueue order, for the same or different entities: strict
head-of-line FIFO processing. -/
theorem drain_delivers_fifo_order (exec : QueuedOp → Bool)
    (events : List SyncEvent) (online : Bool) :
    (syncRun exec events (initSync online)).enqueuedLog =
      (syncRun exec events (initSync online)).delivered ++
        (syncRun exec events (initSync online)).queue :=
  (syncRun_invariants exec events (initSync online) rfl rfl).1

/-- C4: when executing the head operation fails, the queue (and the
delivered log) are left unchanged — the failing operation stays at the
head — the invocation attempts nothing further, `isSyncing` is reset, and
the next drain trigger re-executes exactly that same operation (whatever
its outcome then is). -/
theorem drain_failure_atomic (exec exec2 : QueuedOp → Bool) (s : SyncState)
    (op : QueuedOp) (rest : List QueuedOp)
    (hq : s.queue = op :: rest) (hon : s.isOnline = true) (hsy : s.isSyncing = false)
    (hex : exec op = false) :
    processQueue exec s =
      { s with attempted := s.attempted ++ [op], isSyncing := false } ∧
    (processQueue exec2 (processQueue exec s)).attempted =
      s.attempted ++ [op, op] := by
  have h1 : processQueue exec s =
      { s with attempted := s.attempted ++ [op], isSyncing := false } := by
    have h0 : processQueue exec s = processQueueFuel exec (rest.length + 1 + 1) s := by
      rw [processQueue_eq_fuel, hq, List.length_cons]
    exact h0.trans
      (processQueueFuel_failure exec (rest.length + 1) s op rest hq hon hsy hex)
  refine ⟨h1, ?_⟩
  rw [h1]
  have h2 := processQueue_attempted_head exec2
    { s with attempted := s.attempted ++ [op], isSyncing := false } op rest hq hon rfl
  rw [h2]
  simp

/-- C4 witness: a concrete state whose single queued operation fails
delivery; the queue is untouched and the operation is re-attempted by the
next trigger. -/
theorem drain_failure_atomic_witness :
    processQueue (fun _ => false) sampleFailState =
      { sampleFailState with attempted := [sampleQueuedOp], isSyncing := false } ∧
    (processQueue (fun _ => true)
        (processQueue (fun _ => false) sampleFailState)).attempted =
      [sampleQueuedOp, sampleQueuedOp] :=
  drain_failure_atomic (fun _ => false) (fun _ => true) sampleFailState
    sampleQueuedOp [] rfl rfl rfl rfl

/-- C10: the drain guard flag is never left set.  Every `processQueue`
invocation entered outside a drain resets `isSyncing` in its `finally`
clause on both the success and the failure path, and consequently after
any event trace from a fresh service the flag is false, so every later
trigger (enqueue while online, or reconnect) can start a new drain
cycle. -/
theorem drain_flag_always_reset :
    (∀ (exec : QueuedOp → Bool) (s : SyncState), s.isSyncing = false →
      (processQueue exec s).isSyncing = false) ∧
    (∀ (exec : QueuedOp → Bool) (events : List SyncEvent) (online : Bool),
      (syncRun exec events (initSync online)).isSyncing = false) :=
  ⟨fun exec s h => processQueue_isSyncing exec s h,
   fun exec events online => (syncRun_invariants exec events (initSync online) rfl rfl).2⟩

/-- C10 witness: the flag is false after a concrete failing drain and after
a concrete event trace. -/
theorem drain_flag_always_reset_witness :
    (processQueue (fun _ => false) sampleFailState).isSyncing = false ∧
    (syncRun (fun _ => false) [.enqueue ⟨"create", "t"⟩, .goOnline]
      (initSync false)).isSyncing = false :=
  ⟨drain_flag_always_reset.1 (fun _ => false) sampleFailState rfl,
   drain_flag_always_reset.2 (fun _ => false) [.enqueue ⟨"create", "t"⟩, .goOnline] false⟩

/-! ### Claim theorem for conflict resolution -/

/-- C3: on the online read path with both copies fetched, the remote copy is
returned exactly when its `updatedAt` is strictly newer than the local
one — on a tie or an older remote the local copy is returned — the remote
copy is also returned when the local copy is absent, and the local store
is overwritten with the remote copy exactly when the remote copy wins. -/
theorem getWorkspace_last_writer_wins (l r : Workspace) :
    ((getWorkspace true (some l) (some (some r))).wroteRemote = true ↔
      l.updatedAt < r.updatedAt) ∧
    (l.updatedAt < r.updatedAt →
      getWorkspace true (some l) (some (some r)) = ⟨some r, some r, true⟩) ∧
    (r.updatedAt ≤ l.updatedAt →
      getWorkspace true (some l) (some (some r)) = ⟨some l, some l, false⟩) ∧
    getWorkspace true none (some (some r)) = ⟨some r, some r, true⟩ := by
  unfold getWorkspace
  by_cases hlt : l.updatedAt < r.updatedAt
  · simp [hlt]
  · simp [hlt, le_of_not_lt hlt]

/-- C3 witness: concrete instances of the three directions — remote strictly
newer (remote wins and overwrites), equal timestamps (local retained),
remote older (local retained). -/
theorem getWorkspace_last_writer_wins_witness :
    getWorkspace true (some ⟨7, 100, "L"⟩) (some (some ⟨7, 200, "R"⟩)) =
      ⟨some ⟨7, 200, "R"⟩, some ⟨7, 200, "R"⟩, true⟩ ∧
    getWorkspace true (some ⟨7, 100, "L"⟩) (some (some ⟨7, 100, "R"⟩)) =
      ⟨some ⟨7, 100, "L"⟩, some ⟨7, 100, "L"⟩, false⟩ ∧
    getWorkspace true (some ⟨7, 100, "L"⟩) (some (some ⟨7, 50, "R"⟩)) =
      ⟨some ⟨7, 100, "L"⟩, some ⟨7, 100, "L"⟩, false⟩ :=
  ⟨(getWorkspace_last_writer_wins ⟨7, 100, "L"⟩ ⟨7, 200, "R"⟩).2.1 (by decide),
   (getWorkspace_last_writer_wins ⟨7, 100, "L"⟩ ⟨7, 100, "R"⟩).2.2.1 (by decide),
   (getWorkspace_last_writer_wins ⟨7, 100, "L"⟩ ⟨7, 50, "R"⟩).2.2.1 (by decide)⟩

/-! ### Lemmas about the sessions hook and Math.round -/

/-- Field effect of the `beforeChange` hook on an update: identity, owner,
status, context and `startedAt` are untouched and `lastActive` is stamped
with the current time. -/
lemma sessionsBeforeChange_update_fields (u : Option Nat) (now : Int) (d : Session) :
    (sessionsBeforeChange false u now d).id = d.id ∧
    (sessionsBeforeChange false u now d).userId = d.userId ∧
    (sessionsBeforeChange false u now d).status = d.status ∧
    (sessionsBeforeChange false u now d).context = d.context ∧
    (sessionsBeforeChange false u now d).startedAt = d.startedAt ∧
    (sessionsBeforeChange false u now d).lastActive = some now := by
  by_cases hcc : d.status = SessionStatus.completed ∧ d.completedAt = none
  · cases hst : d.startedAt <;> simp [sessionsBeforeChange, hcc, hst]
  · simp [sessionsBeforeChange, hcc]

/-- Rounding error bound: `Math.round (d / 60000)` scaled back to
milliseconds is within `[-30000, 30000)` of `d`. -/
lemma mathRound_div_bounds (d : ℤ) :
    -30000 ≤ d - 60000 * mathRound ((d : ℚ) / 60000) ∧
    d - 60000 * mathRound ((d : ℚ) / 60000) < 30000 := by
  simp only [mathRound]
  have h1 : ((⌊(d : ℚ) / 60000 + 1 / 2⌋ : ℤ) : ℚ) ≤ (d : ℚ) / 60000 + 1 / 2 :=
    Int.floor_le _
  have h2 : (d : ℚ) / 60000 + 1 / 2 < ((⌊(d : ℚ) / 60000 + 1 / 2⌋ : ℤ) : ℚ) + 1 :=
    Int.lt_floor_add_one _
  have hd : (60000 : ℚ) * ((d : ℚ) / 60000) = (d : ℚ) := by
    field_simp
  constructor
  · have hq : (60000 : ℚ) * ((⌊(d : ℚ) / 60000 + 1 / 2⌋ : ℤ) : ℚ) ≤ (d : ℚ) + 30000 := by
      linarith
    have hz : 60000 * ⌊(d : ℚ) / 60000 + 1 / 2⌋ ≤ d + 30000 := by exact_mod_cast hq
    omega
  · have hq : (d : ℚ) + 30000 < (60000 : ℚ) * ((⌊(d : ℚ) / 60000 + 1 / 2⌋ : ℤ) : ℚ) + 60000 := by
      linarith
    have hz : d + 30000 < 60000 * ⌊(d : ℚ) / 60000 + 1 / 2⌋ + 60000 := by exact_mod_cast hq
    omega

/-! ### Claim theorem for session completion (C8) -/

/-- C8: when a session update enters `completed` status with no completed-at
recorded, the hook stamps `completedAt` with the current time and sets
`durationMinutes` to `Math.round((completedAt - startedAt) / 60000)`; this
value is a nearest integer to the exact duration in minutes (its
millisecond error is at most half a minute, and no other integer count of
minutes is closer). -/
theorem session_completion_duration (u : Option Nat) (now st : Int) (d : Session)
    (hst : d.startedAt = some st) (hc : d.status = SessionStatus.completed)
    (hna : d.completedAt = none) :
    (sessionsBeforeChange false u now d).completedAt = some now ∧
    ∃ dm : ℤ, (sessionsBeforeChange false u now d).durationMinutes = some dm ∧
      dm = mathRound (((now - st : ℤ) : ℚ) / 60000) ∧
      (now - st - 60000 * dm).natAbs ≤ 30000 ∧
      ∀ k : ℤ, (now - st - 60000 * dm).natAbs ≤ (now - st - 60000 * k).natAbs := by
  have hres : sessionsBeforeChange false u now d =
      { d with lastActive := some now, completedAt := some now,
               durationMinutes := some (mathRound (((now - st : ℤ) : ℚ) / 60000)) } := by
    simp [sessionsBeforeChange, hc, hna, hst]
  rw [hres]
  refine ⟨rfl, mathRound (((now - st : ℤ) : ℚ) / 60000), rfl, rfl, ?_, ?_⟩
  · obtain ⟨hlo, hhi⟩ := mathRound_div_bounds (now - st)
    generalize mathRound (((now - st : ℤ) : ℚ) / 60000) = m at *
    omega
  · intro k
    obtain ⟨hlo, hhi⟩ := mathRound_div_bounds (now - st)
    generalize mathRound (((now - st : ℤ) : ℚ) / 60000) = m at *
    omega

/-- C8 witness: a concrete completing session started at time 0 and
completed at 90000 ms (1.5 minutes) gets `completedAt = 90000` and a
rounded duration of 2 minutes. -/
theorem session_completion_duration_witness :
    (sessionsBeforeChange false none 90000 sampleCompleting).durationMinutes = some 2 ∧
    ((sessionsBeforeChange false none 90000 sampleCompleting).completedAt = some 90000 ∧
      ∃ dm : ℤ,
        (sessionsBeforeChange false none 90000 sampleCompleting).durationMinutes = some dm ∧
        dm = mathRound (((90000 - 0 : ℤ) : ℚ) / 60000) ∧
        (90000 - 0 - 60000 * dm).natAbs ≤ 30000 ∧
        ∀ k : ℤ, (90000 - 0 - 60000 * dm).natAbs ≤ (90000 - 0 - 60000 * k).natAbs) :=
  ⟨by norm_num [sessionsBeforeChange, sampleCompleting, sampleSession, mathRound],
   session_completion_duration none 90000 0 sampleCompleting rfl rfl rfl⟩

/-! ### Claim theorems for the HTTP endpoints and the middleware -/

/-- Membership of the hook-processed image of an updated document. -/
lemma payloadUpdateSessions_mem (sid : Nat) (changes : Session → Session) (now : Int)
    (db : List Session) (s : Session) (hs : s ∈ db) (hid : s.id = sid) :
    sessionsBeforeChange false none now (changes s) ∈
      payloadUpdateSessions sid changes now db := by
  unfold payloadUpdateSessions
  have hmap := List.mem_map_of_mem
    (fun t => if t.id = sid then sessionsBeforeChange false none now (changes t) else t) hs
  simpa [hid] using hmap

/-- C5: the save-state endpoint returns 401 when unauthenticated; 403 with
the session collection (hence its context blob) unchanged when the caller
is authenticated but not the session owner; 200 for the owner, with the
session then carrying the new context blob and a fresh last-active
timestamp; and 500 with no write when persistence fails. -/
theorem saveState_endpoint (uid sid : Nat) (c : String) (now : Int) (updateOk : Bool)
    (db : List Session) (sess : Session)
    (hfind : db.find? (fun s => s.id == sid) = some sess) :
    saveStateHandler none sid c now updateOk db = ⟨401, none, db⟩ ∧
    (sess.userId ≠ uid →
      saveStateHandler (some uid) sid c now updateOk db = ⟨403, none, db⟩) ∧
    (sess.userId = uid → updateOk = true →
      (saveStateHandler (some uid) sid c now updateOk db).status = 200 ∧
      ∃ s' ∈ (saveStateHandler (some uid) sid c now updateOk db).db,
        s'.id = sess.id ∧ s'.context = c ∧ s'.lastActive = some now) ∧
    (sess.userId = uid → updateOk = false →
      saveStateHandler (some uid) sid c now updateOk db = ⟨500, none, db⟩) := by
  have hmem : sess ∈ db := List.mem_of_find?_eq_some hfind
  have hsid : sess.id = sid := by
    have := List.find?_some hfind
    simpa using this
  refine ⟨rfl, ?_, ?_, ?_⟩
  · intro hown
    simp [saveStateHandler, hfind, hown]
  · intro hown hok
    constructor
    · simp [saveStateHandler, hfind, hown, hok]
    · have himg := payloadUpdateSessions_mem sid
        (fun s => { s with context := c, lastActive := some now }) now db sess hmem hsid
      have hfields := sessionsBeforeChange_update_fields none now
        { sess with context := c, lastActive := some now }
      refine ⟨sessionsBeforeChange false none now
        { sess with context := c, lastActive := some now }, ?_, ?_, ?_, ?_⟩
      · simpa [saveStateHandler, hfind, hown, hok] using himg
      · exact hfields.1
      · exact hfields.2.2.2.1
      · exact hfields.2.2.2.2.2
  · intro hown hok
    simp [saveStateHandler, hfind, hown, hok]

/-- C5 witness: a non-owner (user 2) gets 403 and the collection is
unchanged; the owner (user 1) gets 200 and the session carries the new
context and last-active stamp; an unauthenticated caller gets 401; a
failing persistence gives 500 with no write. -/
theorem saveState_endpoint_witness :
    saveStateHandler none 10 "new" 99 true [sampleSession] = ⟨401, none, [sampleSession]⟩ ∧
    saveStateHandler (some 2) 10 "new" 99 true [sampleSession] =
      ⟨403, none, [sampleSession]⟩ ∧
    ((saveStateHandler (some 1) 10 "new" 99 true [sampleSession]).status = 200 ∧
      ∃ s' ∈ (saveStateHandler (some 1) 10 "new" 99 true [sampleSession]).db,
        s'.id = sampleSession.id ∧ s'.context = "new" ∧ s'.lastActive = some 99) ∧
    saveStateHandler (some 1) 10 "new" 99 false [sampleSession] =
      ⟨500, none, [sampleSession]⟩ :=
  ⟨(saveState_endpoint 2 10 "new" 99 true [sampleSession] sampleSession rfl).1,
   (saveState_endpoint 2 10 "new" 99 true [sampleSession] sampleSession rfl).2.1
     (by decide),
   (saveState_endpoint 1 10 "new" 99 true [sampleSession] sampleSession rfl).2.2.1
     rfl rfl,
   (saveState_endpoint 1 10 "new" 99 false [sampleSession] sampleSession rfl).2.2.2
     rfl rfl⟩

/-- C6: the resume endpoint returns 401 when unauthenticated and 403 (with
no write) when the caller does not own the session; for the owner of a
paused session it returns 200 with the session record as the body, and the
stored session transitions to active with a fresh last-active timestamp. -/
theorem resumeSession_endpoint (uid sid : Nat) (now : Int)
    (db : List Session) (sess : Session)
    (hfind : db.find? (fun s => s.id == sid) = some sess) :
    resumeSessionHandler none sid now db = ⟨401, none, db⟩ ∧
    (sess.userId ≠ uid → resumeSessionHandler (some uid) sid now db = ⟨403, none, db⟩) ∧
    (sess.userId = uid → sess.status = SessionStatus.paused →
      (resumeSessionHandler (some uid) sid now db).status = 200 ∧
      (resumeSessionHandler (some uid) sid now db).body = some sess ∧
      ∃ s' ∈ (resumeSessionHandler (some uid) sid now db).db,
        s'.id = sess.id ∧ s'.status = SessionStatus.active ∧
        s'.lastActive = some now) := by
  have hmem : sess ∈ db := List.mem_of_find?_eq_some hfind
  have hsid : sess.id = sid := by
    have := List.find?_some hfind
    simpa using this
  refine ⟨rfl, ?_, ?_⟩
  · intro hown
    simp [resumeSessionHandler, hfind, hown]
  · intro hown hpaused
    refine ⟨?_, ?_, ?_⟩
    · simp [resumeSessionHandler, hfind, hown]
    · simp [resumeSessionHandler, hfind, hown]
    · have himg := payloadUpdateSessions_mem sid
        (fun s => { s with status := SessionStatus.active, lastActive := some now })
        now db sess hmem hsid
      have hfields := sessionsBeforeChange_update_fields none now
        { sess with status := SessionStatus.active, lastActive := some now }
      refine ⟨sessionsBeforeChange false none now
        { sess with status := SessionStatus.active, lastActive := some now },
        ?_, ?_, ?_, ?_⟩
      · simpa [resumeSessionHandler, hfind, hown, hpaused] using himg
      · exact hfields.1
      · exact hfields.2.2.1
      · exact hfields.2.2.2.2.2

/-- C6 witness: user 2 gets 403 on the paused session of user 1; user 1
resumes it, receiving 200 with the fetched record as body while the stored
session becomes active with last-active 99; unauthenticated gets 401. -/
theorem resumeSession_endpoint_witness :
    resumeSessionHandler none 11 99 [samplePaused] = ⟨401, none, [samplePaused]⟩ ∧
    resumeSessionHandler (some 2) 11 99 [samplePaused] = ⟨403, none, [samplePaused]⟩ ∧
    ((resumeSessionHandler (some 1) 11 99 [samplePaused]).status = 200 ∧
      (resumeSessionHandler (some 1) 11 99 [samplePaused]).body = some samplePaused ∧
      ∃ s' ∈ (resumeSessionHandler (some 1) 11 99 [samplePaused]).db,
        s'.id = samplePaused.id ∧ s'.status = SessionStatus.active ∧
        s'.lastActive = some 99) :=
  ⟨(resumeSession_endpoint 2 11 99 [samplePaused] samplePaused rfl).1,
   (resumeSession_endpoint 2 11 99 [samplePaused] samplePaused rfl).2.1 (by decide),
   (resumeSession_endpoint 1 11 99 [samplePaused] samplePaused rfl).2.2
     rfl rfl⟩

/-- C7: a tracked authenticated request finds the requesting user active
session and stamps its last-active; the session transitions to paused
exactly when the time elapsed since its previously recorded last-active
strictly exceeds the 15-minute threshold, and stays active otherwise. -/
theorem trackActivity_pause_boundary (uid : Nat) (now la : Int)
    (st : TrackState) (sess : Session)
    (hfind : st.sessions.find?
      (fun s => s.userId == uid && s.status == SessionStatus.active) = some sess)
    (hla : sess.lastActive = some la) :
    ∃ s' ∈ (trackActivity (some uid) now st).sessions,
      s'.id = sess.id ∧ s'.lastActive = some now ∧
      (s'.status = SessionStatus.paused ↔ ACTIVITY_TIMEOUT < now - la) ∧
      (now - la ≤ ACTIVITY_TIMEOUT → s'.status = SessionStatus.active) := by
  have hmem : sess ∈ st.sessions := List.mem_of_find?_eq_some hfind
  have hpred := List.find?_some hfind
  simp only [Bool.and_eq_true, beq_iff_eq] at hpred
  obtain ⟨huid, hact⟩ := hpred
  have hf1 := sessionsBeforeChange_update_fields none now
    { sess with lastActive := some now }
  set s1 : Session :=
    sessionsBeforeChange false none now { sess with lastActive := some now } with hs1
  have hmem1 : s1 ∈ payloadUpdateSessions sess.id
      (fun s => { s with lastActive := some now }) now st.sessions :=
    payloadUpdateSessions_mem sess.id _ now st.sessions sess hmem rfl
  by_cases hto : ACTIVITY_TIMEOUT < now - la
  · -- pause branch: the session image also receives status paused
    have hf2 := sessionsBeforeChange_update_fields none now
      { s1 with status := SessionStatus.paused }
    refine ⟨sessionsBeforeChange false none now { s1 with status := SessionStatus.paused },
      ?_, ?_, ?_, ?_, ?_⟩
    · have hmem2 := payloadUpdateSessions_mem sess.id
        (fun s => { s with status := SessionStatus.paused }) now _ s1 hmem1 hf1.1
      simp only [trackActivity, hfind, hla]
      rw [if_pos (by exact hto)]
      exact hmem2
    · exact hf2.1.trans hf1.1
    · exact hf2.2.2.2.2.2
    · simp [hf2.2.2.1, hto]
    · intro hle
      exact absurd hto (not_lt.mpr hle)
  · -- no pause: the stamped session keeps its active status
    refine ⟨s1, ?_, hf1.1, hf1.2.2.2.2.2, ?_, ?_⟩
    · simp only [trackActivity, hfind, hla]
      rw [if_neg (by exact hto)]
      exact hmem1
    · rw [hf1.2.2.1]
      simp only [hact]
      constructor
      · intro h
        cases h
      · intro h
        exact absurd h hto
    · intro _
      exact hf1.2.2.1.trans hact

/-- C7 witness: with the threshold at 900000 ms, a session whose last-active
is 901000 ms ago (15 min 1 s) is paused by the tracked request, while one
whose last-active is 840000 ms ago (14 min) stays active; both receive a
fresh last-active stamp. -/
theorem trackActivity_pause_boundary_witness :
    (∃ s' ∈ (trackActivity (some 1) 901000
        ⟨[⟨1, some 0⟩], [sampleSession]⟩).sessions,
      s'.id = sampleSession.id ∧ s'.lastActive = some 901000 ∧
      (s'.status = SessionStatus.paused ↔ ACTIVITY_TIMEOUT < 901000 - 0) ∧
      (901000 - 0 ≤ ACTIVITY_TIMEOUT → s'.status = SessionStatus.active)) ∧
    (∃ s' ∈ (trackActivity (some 1) 840000
        ⟨[⟨1, some 0⟩], [sampleSession]⟩).sessions,
      s'.id = sampleSession.id ∧ s'.lastActive = some 840000 ∧
      (s'.status = SessionStatus.paused ↔ ACTIVITY_TIMEOUT < 840000 - 0) ∧
      (840000 - 0 ≤ ACTIVITY_TIMEOUT → s'.status = SessionStatus.active)) :=
  ⟨trackActivity_pause_boundary 1 901000 0 ⟨[⟨1, some 0⟩], [sampleSession]⟩
     sampleSession rfl rfl,
   trackActivity_pause_boundary 1 840000 0 ⟨[⟨1, some 0⟩], [sampleSession]⟩
     sampleSession rfl rfl⟩

/-! ### Claim theorem for local-store error handling (C9) -/

/-- C9: a local-store read whose stored value fails to deserialize returns
the caller-supplied initial value and logs the failure instead of raising;
a failing persistent write is logged, not raised, and the in-memory state
keeps the value being written (shown both for the `usePersistentState`
write effect and for `MockElectronStore.set`, whose record keeps the new
value readable while the backing storage is untouched); a
`MockElectronStore` whose stored blob fails to parse keeps its defaults
and logs. -/
theorem localStore_error_fallback :
    (∀ (T : Type) (err str : String) (deserialize : String → Except String T)
      (init : T), str ≠ "" → deserialize str = .error err →
      usePersistentStateInit (.ok (some str)) deserialize init = (init, true)) ∧
    (∀ (T : Type) (key : String) (v : T) (serialize : T → String)
      (storage : List (String × String)),
      usePersistentStateWrite key v serialize false storage = (v, storage, true)) ∧
    (∀ (key value defv : String) (serialize : List (String × String) → String)
      (m : MockElectronStore),
      mockStoreGet (mockStoreSet key value false serialize m) key defv = value ∧
      (mockStoreSet key value false serialize m).loggedError = true ∧
      (mockStoreSet key value false serialize m).backing = m.backing) ∧
    (∀ (defaults : List (String × String)) (s err : String)
      (parse : String → Except String (List (String × String))),
      parse s = .error err →
      (mockStoreInit defaults (some s) parse).store = defaults ∧
      (mockStoreInit defaults (some s) parse).loggedError = true) := by
  refine ⟨?_, ?_, ?_, ?_⟩
  · intro T err str deserialize init hne hde
    simp [usePersistentStateInit, hne, hde]
  · intro T key v serialize storage
    simp [usePersistentStateWrite]
  · intro key value defv serialize m
    refine ⟨?_, rfl, rfl⟩
    simp [mockStoreGet, mockStoreSet, List.lookup]
  · intro defaults s err parse hp
    constructor <;> simp [mockStoreInit, hp]

/-- C9 witness: a concrete failing parse falls back to the initial value 7
with a logged error; a concrete failing write keeps state 5 and leaves
storage untouched; a concrete `MockElectronStore.set` with failing persist
still serves the written value; a failing stored-blob parse keeps the
defaults. -/
theorem localStore_error_fallback_witness :
    usePersistentStateInit (T := Nat) (.ok (some "bad")) (fun _ => .error "oops") 7 =
      (7, true) ∧
    usePersistentStateWrite "k" (5 : Nat) (fun _ => "5") false [("a", "b")] =
      (5, [("a", "b")], true) ∧
    mockStoreGet (mockStoreSet "k" "v" false (fun _ => "ser")
      ⟨[], none, false⟩) "k" "d" = "v" ∧
    (mockStoreInit [("a", "b")] (some "junk") (fun _ => .error "parse")).store =
      [("a", "b")] :=
  ⟨localStore_error_fallback.1 Nat "oops" "bad" (fun _ => .error "oops") 7
     (by decide) rfl,
   localStore_error_fallback.2.1 Nat "k" 5 (fun _ => "5") [("a", "b")],
   (localStore_error_fallback.2.2.1 "k" "v" "d" (fun _ => "ser") ⟨[], none, false⟩).1,
   (localStore_error_fallback.2.2.2 [("a", "b")] "junk" "parse"
     (fun _ => .error "parse") rfl).1⟩

end WorkspaceManager
